import Mathlib

/-!
Verification development for the admin-backend websocket handlers
(`src/admin/handlers/orders.py`, `porter.py`, `products.py`).

Each Python handler is shallowly embedded as a pure Lean function over an
explicit store state (lists of documents).  MongoDB-style document fields
that may be absent are modelled as `Option`; Python string truthiness
(`if s:`) is modelled as "present and non-empty"; `datetime.utcnow()` is
abstracted as a `Nat` tick supplied by the caller; external library
functions (ISO date parsing, `float()`, `ObjectId.is_valid`, Cloudinary
uploads) are abstracted as function parameters, exactly at the call
boundary where the source invokes them.
-/

namespace AdminBackend

/-- Python truthiness for an optional string field: present and non-empty. -/
def truthyS : Option String → Bool
  | some s => !s.isEmpty
  | none => false

/-- Python `a or b` on two optional string fields (`data.get("order_id") or
data.get("orderId")` in `update_order_status`). -/
def pyOr (a b : Option String) : Option String :=
  if truthyS a then a else b

/-- ASCII whitespace stripped by Python `str.strip()`. -/
def pyIsSpace (c : Char) : Bool :=
  c == ' ' || c == '\t' || c == '\n' || c == '\r'

/-- Python `s.strip()`: remove leading and trailing whitespace. -/
def pyStrip (s : String) : String :=
  String.mk (((s.data.dropWhile pyIsSpace).reverse.dropWhile pyIsSpace).reverse)

/-- Python `s.startswith(p)`. -/
def pyStartsWith (s p : String) : Bool :=
  s.data.take p.data.length == p.data

/-- Python `s[n:]`: drop the first `n` characters. -/
def pyDropChars (n : Nat) (s : String) : String :=
  String.mk (s.data.drop n)

/-- A `status_change_history` entry, with exactly the keys pushed by
`update_order_status` (orders.py:270-277) and `assign_delivery_partner`
(orders.py:397-406).  `changedBy` is `none` when the source omits the
`changed_by` key (it is commented out in `update_order_status`). -/
structure HistoryEntry where
  status : String
  changedAt : Nat
  changedBy : Option String
  partnerId : Option String
  partnerName : Option String
  message : String
deriving Repr, DecidableEq

/-- The slice of an order document touched by the lifecycle handlers in
orders.py, plus the `user` reference read by `send_orders`. -/
structure Order where
  id : String
  user : Option String
  orderStatus : String
  deliveryPartner : Option String
  statusMessage : String
  updatedAt : Nat
  assignedAt : Option Nat
  statusChangeHistory : List HistoryEntry
deriving Repr, DecidableEq

/-- The two lifecycle store writes issued by orders.py: a plain status
update (`update_order_status`) and a partner assignment
(`assign_delivery_partner`, carrying the partner id, the acting admin name
and the partner's display name). -/
inductive LifecycleWrite where
  | setStatus (newStatus : String)
  | assignPartner (partnerId adminName partnerName : String)
deriving Repr, DecidableEq

/-- The history entry pushed by each lifecycle write, transcribed from the
`$push` documents at orders.py:270-277 and orders.py:397-406. -/
def lifecycleEntry (now : Nat) : LifecycleWrite → HistoryEntry
  | .setStatus s =>
      { status := s, changedAt := now, changedBy := none,
        partnerId := none, partnerName := none,
        message := "Order is out for delivery" }
  | .assignPartner pid admin pname =>
      { status := "assigned", changedAt := now, changedBy := some admin,
        partnerId := some pid, partnerName := some pname,
        message := "Order assigned to " ++ pname ++ " by " ++ admin }

/-- The effect on one order document of the single `update_one` call issued
by each lifecycle handler: the `$set` fields and the `$push` onto
`status_change_history`, applied together (orders.py:260-279 and
orders.py:386-408). -/
def applyLifecycleWrite (now : Nat) (w : LifecycleWrite) (o : Order) : Order :=
  match w with
  | .setStatus s =>
      { o with
        orderStatus := s,
        updatedAt := now,
        statusMessage := "Order is out for delivery",
        statusChangeHistory := o.statusChangeHistory ++ [lifecycleEntry now w] }
  | .assignPartner pid _admin _pname =>
      { o with
        deliveryPartner := some pid,
        orderStatus := "assigned",
        assignedAt := some now,
        updatedAt := now,
        statusMessage := "Order assigned to " ++ _pname,
        statusChangeHistory := o.statusChangeHistory ++ [lifecycleEntry now w] }

/-- Mongo `update_one` on a list store: rewrite the first document matching
the predicate, leave the rest untouched. -/
def updateFirst (p : α → Bool) (f : α → α) : List α → List α
  | [] => []
  | x :: xs => if p x then f x :: xs else x :: updateFirst p f xs

/-- The slice of a user document read by the handlers.  `id` is the
human-assigned custom identifier (orders.py queries) and `oid` the internal
`_id` surrogate key (porter.py queries); both coexist per document. -/
structure User where
  id : String
  oid : String
  name : String
  email : String
  phone : String
  role : String
  isActive : Bool
deriving Repr, DecidableEq

/-- Websocket replies sent by the order lifecycle handlers. -/
inductive OrderResponse where
  | orderUpdated (orderId : String)
  | orderAssigned (orderId partnerId partnerName : String)
  | error (message : String)
deriving Repr, DecidableEq

/-- Embedding of `update_order_status` (orders.py:235-298): resolve the
order id from either key, validate presence, then issue one `update_one`
combining the `$set` fields with the `$push` of a history entry; reply with
success iff the update matched a document. -/
def updateOrderStatus (dOrderId dOrderIdAlt dStatus : Option String)
    (now : Nat) (orders : List Order) : OrderResponse × List Order :=
  match pyOr dOrderId dOrderIdAlt, dStatus with
  | some oid, some st =>
    if oid.isEmpty || st.isEmpty then
      (.error "Order ID and status are required", orders)
    else
      let orders' := updateFirst (fun o => o.id == oid)
        (applyLifecycleWrite now (.setStatus st)) orders
      if orders.any (fun o => o.id == oid) then (.orderUpdated oid, orders')
      else (.error "Failed to update order", orders')
  | _, _ => (.error "Order ID and status are required", orders)

/-- The `find_one` filter used by `assign_delivery_partner`
(orders.py:370-374): custom id, role `delivery_partner`, and `is_active`
true, all in one query document. -/
def deliveryPartnerQuery (pid : String) (u : User) : Bool :=
  u.id == pid && u.role == "delivery_partner" && u.isActive

/-- Embedding of `assign_delivery_partner` (orders.py:346-442): validate
ids, look up the order, look up an active delivery partner, then issue one
`update_one` setting the partner reference and status `assigned` while
pushing an audit entry carrying the admin name and partner identity. -/
def assignDeliveryPartner (dOrderId dPartnerId dAdminName : Option String)
    (now : Nat) (orders : List Order) (users : List User) :
    OrderResponse × List Order :=
  match dOrderId, dPartnerId with
  | some oid, some pid =>
    if oid.isEmpty || pid.isEmpty then
      (.error "Order ID and delivery partner ID are required", orders)
    else
      match orders.find? (fun o => o.id == oid) with
      | none => (.error "Order not found", orders)
      | some _ =>
        match users.find? (deliveryPartnerQuery pid) with
        | none => (.error "Delivery partner not found or inactive", orders)
        | some partner =>
          let w : LifecycleWrite :=
            .assignPartner pid (dAdminName.getD "Admin") partner.name
          let orders' := updateFirst (fun o => o.id == oid)
            (applyLifecycleWrite now w) orders
          if orders.any (fun o => o.id == oid) then
            (.orderAssigned oid pid partner.name, orders')
          else
            (.error "Failed to assign delivery partner", orders')
  | _, _ => (.error "Order ID and delivery partner ID are required", orders)

/-- Concrete order used by the witnesses. -/
def sampleOrder : Order :=
  { id := "O1", user := some "U1", orderStatus := "pending",
    deliveryPartner := none, statusMessage := "", updatedAt := 0,
    assignedAt := none, statusChangeHistory := [] }

/-- Concrete one-order store used by the witnesses. -/
def sampleOrders : List Order := [sampleOrder]

/-- Concrete active delivery partner used by the witnesses. -/
def samplePartner : User :=
  { id := "P1", oid := "p1", name := "Pat", email := "p@x", phone := "1",
    role := "delivery_partner", isActive := true }

/-- Concrete inactive delivery partner used by the witnesses and
counterexamples. -/
def sampleInactivePartner : User :=
  { id := "P1", oid := "p1", name := "Pat", email := "p@x", phone := "1",
    role := "delivery_partner", isActive := false }

/-- Transcription of `total_pages = max(1, math.ceil(total_count / limit))`
(orders.py:31), with Python's real division and `math.ceil` embedded as the
rational ceiling. -/
def sendOrdersTotalPages (totalCount limit : Nat) : Nat :=
  max 1 (Nat.ceil ((totalCount : ℚ) / (limit : ℚ)))

/-- The pagination block sent by `send_orders` (orders.py:73-79). -/
structure Pagination where
  currentPage : Int
  totalPages : Nat
  totalItems : Nat
  hasPrev : Bool
  hasNext : Bool
deriving Repr, DecidableEq

/-- The pagination metadata computed by `send_orders` (orders.py:26-31 and
73-79): `has_prev` is `page > 1` and `has_next` is `page < total_pages`. -/
def sendOrdersPagination (page : Int) (limit totalCount : Nat) : Pagination :=
  { currentPage := page,
    totalPages := sendOrdersTotalPages totalCount limit,
    totalItems := totalCount,
    hasPrev := decide (1 < page),
    hasNext := decide (page < (sendOrdersTotalPages totalCount limit : Int)) }

/-- The page fetch of `send_orders` (orders.py:33-39) over the documents
matching the query, already sorted: skip then limit. -/
def sendOrdersRows (matching : List Order) (skip limit : Nat) : List Order :=
  (matching.drop skip).take limit

/-- The distinct owning-user id set collected by `send_orders`
(orders.py:42): `list({o["user"] for o in orders if o.get("user")})`. -/
def ordersPageUserIds (page : List Order) : List String :=
  (page.filterMap (fun o => match o.user with
    | some u => if u.isEmpty then none else some u
    | none => none)).dedup

/-- The user-lookup calls `send_orders` issues for the owning users of a
page: exactly one `find_many("users", {"id": {"$in": user_ids}})` call
(orders.py:45), represented by the id set it carries. -/
def sendOrdersUserLookupCalls (page : List Order) : List (List String) :=
  [ordersPageUserIds page]

/-- The slice of a porter-request document used by porter.py. `oid` is the
`_id` surrogate key; porter requests carry no history. -/
structure PorterRequest where
  oid : String
  userId : Option String
  status : String
  assignedPartnerId : Option String
  assignedPartnerName : Option String
  estimatedCost : Option ℚ
  updatedAt : Nat
deriving Repr, DecidableEq

/-- The user-lookup calls `get_porter_requests` issues: inside the per-row
loop (porter.py:38-43), one `find_one("users", {"_id": ...})` per request
whose `user_id` is truthy. -/
def getPorterRequestsUserLookupCalls (reqs : List PorterRequest) :
    List (List String) :=
  reqs.filterMap (fun r => match r.userId with
    | some uid => if uid.isEmpty then none else some [uid]
    | none => none)

/-- Websocket replies sent by the porter handlers. -/
inductive PorterResponse where
  | updated (requestId : String)
  | error (message : String)
deriving Repr, DecidableEq

/-- The `update_data` document written by `assign_porter_partner`
(porter.py:194-209): partner reference and denormalized name, status
`assigned`, updated timestamp, and the estimated cost only when supplied. -/
def porterAssignApply (pid pname : String) (cost : Option ℚ) (now : Nat)
    (r : PorterRequest) : PorterRequest :=
  { r with
    assignedPartnerId := some pid,
    assignedPartnerName := some pname,
    status := "assigned",
    updatedAt := now,
    estimatedCost := match cost with
      | some c => some c
      | none => r.estimatedCost }

/-- Embedding of `assign_porter_partner` (porter.py:163-224): validate
presence and identifier format (`ObjectId.is_valid`, abstracted as
`isValidOid`), look the partner up by surrogate key, reject when absent or
when the role is not `delivery_partner`, then update the request and reply
with success.  The source performs no `is_active` check. -/
def assignPorterPartner (isValidOid : String → Bool)
    (dRequestId dPartnerId : Option String) (dCost : Option ℚ) (now : Nat)
    (users : List User) (reqs : List PorterRequest) :
    PorterResponse × List PorterRequest :=
  match dRequestId, dPartnerId with
  | some rid, some pid =>
    if rid.isEmpty || pid.isEmpty then
      (.error "Request ID and partner ID are required", reqs)
    else if !(isValidOid rid && isValidOid pid) then
      (.error "Invalid ID format", reqs)
    else
      match users.find? (fun u => u.oid == pid) with
      | none => (.error "Invalid delivery partner", reqs)
      | some partner =>
        if partner.role != "delivery_partner" then
          (.error "Invalid delivery partner", reqs)
        else
          (.updated rid,
            updateFirst (fun r => r.oid == rid)
              (porterAssignApply pid partner.name dCost now) reqs)
  | _, _ => (.error "Request ID and partner ID are required", reqs)

/-- Concrete porter request used by witnesses and counterexamples. -/
def samplePorterRequest : PorterRequest :=
  { oid := "r1", userId := some "U1", status := "pending",
    assignedPartnerId := none, assignedPartnerName := none,
    estimatedCost := none, updatedAt := 0 }

/-- The url pair returned by a successful Cloudinary upload
(`upload_result["urls"]["original"]` / `["thumbnail"]`). -/
structure UploadUrls where
  original : String
  thumbnail : String
deriving Repr, DecidableEq

/-- An upload outcome document: `urls` is `none` when
`upload_result.get("urls")` is falsy. -/
structure UploadResult where
  urls : Option UploadUrls
  publicId : String
deriving Repr, DecidableEq

/-- An image record as stored by `handle_create_product`
(products.py:412-418): url, thumbnail, storage public id, submission
index, and `is_primary` exactly when the index is 0. -/
structure StoredImage where
  url : String
  thumbnail : String
  publicId : String
  index : Nat
  isPrimary : Bool
deriving Repr, DecidableEq

/-- The per-image guard of the create-product upload loop
(products.py:394): `image_data and image_data.strip() and
image_data.startswith("data:")` in Python truthiness. -/
def uploadGuard (d : String) : Bool :=
  !d.isEmpty && !(pyStrip d).isEmpty && pyStartsWith d "data:"

/-- One iteration of the create-product upload loop at index `i`
(products.py:394-425).  The abstract `upload` function returns `none` when
the Cloudinary call raises (the `except` branch logs and continues) and an
`UploadResult` otherwise; the image is kept only when the result carries
truthy urls, with `index = i` and `is_primary = (i == 0)`. -/
def uploadOutcome (upload : Nat → String → Option UploadResult)
    (i : Nat) (d : String) : List StoredImage :=
  if uploadGuard d then
    match upload i d with
    | some r =>
      match r.urls with
      | some u => [⟨u.original, u.thumbnail, r.publicId, i, i == 0⟩]
      | none => []
    | none => []
  else []

/-- The upload loop of `handle_create_product` (products.py:393-425),
unrolled over `enumerate(images_data)` starting at index `i`: each
submission is attempted independently and in order. -/
def uploadLoop (upload : Nat → String → Option UploadResult) :
    Nat → List String → List StoredImage
  | _, [] => []
  | i, d :: rest => uploadOutcome upload i d ++ uploadLoop upload (i + 1) rest

/-- The full `uploaded_images` list built by `handle_create_product` for a
submitted batch. -/
def uploadedImages (upload : Nat → String → Option UploadResult)
    (imagesData : List String) : List StoredImage :=
  uploadLoop upload 0 imagesData

/-- Concrete upload behavior for the witness: the index-0 upload raises,
every later upload succeeds. -/
def sampleUpload : Nat → String → Option UploadResult :=
  fun i _ => if i == 0 then none else some ⟨some ⟨"url", "thumb"⟩, "pid"⟩

/-- Concrete three-image batch for the witness. -/
def sampleImagesData : List String := ["data:a", "data:b", "data:c"]

/-- One storage-level filter clause producible by `build_orders_query`
(orders.py:161-233): a `created_at` range bound or a `total_amount` range
bound.  Timestamps are abstract `Int` ticks; amounts are rationals
(Python floats used only as opaque comparable values). -/
inductive Clause where
  | createdAtGte (d : Int)
  | createdAtLte (d : Int)
  | totalAmountGte (a : ℚ)
  | totalAmountLte (a : ℚ)
deriving Repr, DecidableEq

/-- A regular-expression match spec: `build_orders_query` always sets
`$options: "i"` (case-insensitive) on the id regex (orders.py:226). -/
structure RegexSpec where
  pattern : String
  caseInsensitive : Bool
deriving Repr, DecidableEq

/-- The query document built by `build_orders_query`: the optional
`order_status` equality, the optional single `created_at` range bound
(written via `query.update` when exactly one date parses), the optional
`$and` conjunction list, and the optional `id` regex. -/
structure OrdersQuery where
  orderStatus : Option String
  createdAt : Option Clause
  and : Option (List Clause)
  idRegex : Option RegexSpec
deriving Repr, DecidableEq

/-- The raw filter payload accepted by `build_orders_query`; every field
weakly typed and optional, as it arrives from the client. -/
structure OrdersFilters where
  status : Option String
  fromDate : Option String
  toDate : Option String
  minAmount : Option String
  maxAmount : Option String
  search : Option String
deriving Repr

/-- The `date_conditions` list of `build_orders_query` (orders.py:171-185):
each bound contributes a clause when present, truthy, and parsing succeeds
after `replace("Z", "+00:00")`; a malformed bound is dropped.  `parseIso`
abstracts `datetime.fromisoformat`. -/
def dateConditions (parseIso : String → Option Int) (f : OrdersFilters) :
    List Clause :=
  (match f.fromDate with
   | some s =>
     if s.isEmpty then []
     else
       match parseIso (s.replace "Z" "+00:00") with
       | some d => [Clause.createdAtGte d]
       | none => []
   | none => []) ++
  (match f.toDate with
   | some s =>
     if s.isEmpty then []
     else
       match parseIso (s.replace "Z" "+00:00") with
       | some d => [Clause.createdAtLte d]
       | none => []
   | none => [])

/-- The `amount_conditions` list of `build_orders_query`
(orders.py:194-208); `parseAmount` abstracts Python `float()`, returning
`none` when it raises `ValueError`. -/
def amountConditions (parseAmount : String → Option ℚ) (f : OrdersFilters) :
    List Clause :=
  (match f.minAmount with
   | some s =>
     if s.isEmpty then []
     else
       match parseAmount s with
       | some a => [Clause.totalAmountGte a]
       | none => []
   | none => []) ++
  (match f.maxAmount with
   | some s =>
     if s.isEmpty then []
     else
       match parseAmount s with
       | some a => [Clause.totalAmountLte a]
       | none => []
   | none => [])

/-- Embedding of `build_orders_query` (orders.py:161-233): status equality
unless absent or "all"; one date bound goes into the `created_at` key via
`query.update`, two go into `$and`; amount bounds extend an existing
`$and` list or create one; the search term is stripped of surrounding
whitespace and one leading "#" and becomes a case-insensitive regex on the
custom `id` field, never on `_id`. -/
def buildOrdersQuery (parseIso : String → Option Int)
    (parseAmount : String → Option ℚ) (f : OrdersFilters) : OrdersQuery :=
  let q0 : OrdersQuery :=
    { orderStatus := none, createdAt := none, and := none, idRegex := none }
  let q1 := match f.status with
    | some s => if !s.isEmpty && s != "all" then { q0 with orderStatus := some s } else q0
    | none => q0
  let dc := dateConditions parseIso f
  let q2 :=
    if dc.isEmpty then q1
    else if dc.length == 1 then { q1 with createdAt := dc.head? }
    else { q1 with and := some dc }
  let ac := amountConditions parseAmount f
  let q3 :=
    if ac.isEmpty then q2
    else
      match q2.and with
      | some l => { q2 with and := some (l ++ ac) }
      | none => { q2 with and := some ac }
  match f.search with
  | some s =>
    if s.isEmpty then q3
    else
      let t := pyStrip s
      let t := if pyStartsWith t "#" then pyDropChars 1 t else t
      { q3 with idRegex := some { pattern := t, caseInsensitive := true } }
  | none => q3

/-- The slice of a product document relevant to the status/active-flag
invariant, with `stock` as a representative further updatable field. -/
structure Product where
  id : String
  status : String
  isActive : Bool
  stock : Nat
deriving Repr, DecidableEq

/-- The status fields written by `handle_create_product`
(products.py:369-370): `status = data.get("status", "active")` and
`is_active = data.get("status", "active") == "active"`. -/
def createProductStatusFields (dataStatus : Option String) : String × Bool :=
  let s := dataStatus.getD "active"
  (s, s == "active")

/-- The update payload slice accepted by `handle_update_product`: a field
is `none` when the key is absent from the inbound `data` mapping. -/
structure ProductUpdatePayload where
  status : Option String
  stock : Option Nat
deriving Repr, DecidableEq

/-- The `$set` applied by `handle_update_product` (products.py:517-530 and
613-617) to the stored product: every supplied field is written, and
`is_active` is always written as
`update_data.get("status", "active") == "active"`, whether or not the
payload carries a status key. -/
def updateProductApply (u : ProductUpdatePayload) (p : Product) : Product :=
  { p with
    status := u.status.getD p.status,
    stock := u.stock.getD p.stock,
    isActive := u.status.getD "active" == "active" }

theorem updateFirst_of_forall_not (p : α → Bool) (f : α → α) (l : List α)
    (h : ∀ x ∈ l, p x = false) : updateFirst p f l = l := by
  induction l with
  | nil => rfl
  | cons x xs ih =>
      simp [updateFirst, h x (List.mem_cons_self x xs),
        ih fun y hy => h y (List.mem_cons_of_mem x hy)]

theorem updateFirst_spec (p : α → Bool) (f : α → α) (l : List α)
    (h : l.any p = true) :
    ∃ pre x post, l = pre ++ x :: post ∧ (∀ y ∈ pre, p y = false) ∧
      p x = true ∧ updateFirst p f l = pre ++ f x :: post := by
  induction l with
  | nil => simp at h
  | cons a as ih =>
      by_cases ha : p a = true
      · exact ⟨[], a, as, rfl, by simp, ha, by simp [updateFirst, ha]⟩
      · have ha' : p a = false := by simpa using ha
        have h' : as.any p = true := by
          simpa [List.any_cons, ha'] using h
        obtain ⟨pre, x, post, hdec, hpre, hx, hupd⟩ := ih h'
        refine ⟨a :: pre, x, post, by simp [hdec], ?_, hx, ?_⟩
        · intro y hy
          rcases List.mem_cons.mp hy with hy | hy
          · simpa [hy] using ha'
          · exact hpre y hy
        · simp [updateFirst, ha', hupd]

/-- C1: every lifecycle write (status update or partner assignment) appends
exactly one entry to `status_change_history` in the same store update that
sets `order_status`; hence the history length grows by one on each write
(so it is monotonically non-decreasing over any sequence of writes), and
immediately after a write the last history entry's status equals the
order's current `order_status`. -/
theorem lifecycle_history_append (o : Order) (now : Nat) (w : LifecycleWrite)
    (ws : List (Nat × LifecycleWrite)) :
    (applyLifecycleWrite now w o).statusChangeHistory
        = o.statusChangeHistory ++ [lifecycleEntry now w]
    ∧ (applyLifecycleWrite now w o).statusChangeHistory.length
        = o.statusChangeHistory.length + 1
    ∧ (applyLifecycleWrite now w o).statusChangeHistory.getLast?
        = some (lifecycleEntry now w)
    ∧ (lifecycleEntry now w).status = (applyLifecycleWrite now w o).orderStatus
    ∧ o.statusChangeHistory.length ≤
        (ws.foldl (fun a q => applyLifecycleWrite q.1 q.2 a) o).statusChangeHistory.length := by
  refine ⟨?_, ?_, ?_, ?_, ?_⟩
  · cases w <;> rfl
  · cases w <;> simp [applyLifecycleWrite]
  · cases w <;> simp [applyLifecycleWrite]
  · cases w <;> rfl
  · induction ws generalizing o with
    | nil => exact le_rfl
    | cons q qs ih =>
        refine le_trans ?_ (ih (applyLifecycleWrite q.1 q.2 o))
        cases q.2 <;> simp [applyLifecycleWrite]

/-- C10: every successful `update_order_status` command, whatever the
target status, stores the constant message "Order is out for delivery"
both as the order's `status_message` field and as the message of the
appended history entry, and records no actor (`changed_by`) in that
entry. -/
theorem update_order_status_constant_message
    (oid st : String) (now : Nat) (orders : List Order)
    (hoid : oid ≠ "") (hst : st ≠ "")
    (hex : orders.any (fun o => o.id == oid) = true) :
    (updateOrderStatus (some oid) none (some st) now orders).fst
      = .orderUpdated oid
    ∧ ∃ pre x post, orders = pre ++ x :: post ∧ x.id = oid ∧
        (updateOrderStatus (some oid) none (some st) now orders).snd
          = pre ++ applyLifecycleWrite now (.setStatus st) x :: post
        ∧ (applyLifecycleWrite now (.setStatus st) x).statusMessage
            = "Order is out for delivery"
        ∧ (applyLifecycleWrite now (.setStatus st) x).statusChangeHistory.getLast?
            = some { status := st, changedAt := now, changedBy := none,
                     partnerId := none, partnerName := none,
                     message := "Order is out for delivery" } := by
  have hoe : oid.isEmpty = false := by
    rw [Bool.eq_false_iff]
    simpa [String.isEmpty_iff] using hoid
  have hse : st.isEmpty = false := by
    rw [Bool.eq_false_iff]
    simpa [String.isEmpty_iff] using hst
  obtain ⟨pre, x, post, hdec, _hpre, hx, hupd⟩ :=
    updateFirst_spec (fun o => o.id == oid)
      (applyLifecycleWrite now (.setStatus st)) orders hex
  have hx' : x.id = oid := by simpa using hx
  constructor
  · simp [updateOrderStatus, pyOr, truthyS, hoe, hse, hex]
  · refine ⟨pre, x, post, hdec, hx', ?_, rfl, ?_⟩
    · simp [updateOrderStatus, pyOr, truthyS, hoe, hse, hex, hupd]
    · simp [applyLifecycleWrite, lifecycleEntry]

/-- C10 witness: a concrete successful status update on the sample store
produces the success reply and stores the constant message with no
actor. -/
theorem update_order_status_constant_message_witness :
    (updateOrderStatus (some "O1") none (some "delivered") 7 sampleOrders).fst
      = .orderUpdated "O1"
    ∧ (updateOrderStatus (some "O1") none (some "delivered") 7 sampleOrders).snd
      = [applyLifecycleWrite 7 (.setStatus "delivered") sampleOrder] := by
  have h := update_order_status_constant_message "O1" "delivered" 7 sampleOrders
    (by decide) (by decide) (by decide)
  refine ⟨h.1, ?_⟩
  obtain ⟨pre, x, post, hdec, _, hsnd, _, _⟩ := h.2
  have : pre = [] ∧ x = sampleOrder ∧ post = [] := by
    have hd := hdec
    cases pre with
    | nil =>
        simp only [List.nil_append] at hd
        cases hd
        exact ⟨rfl, rfl, rfl⟩
    | cons a as =>
        rcases as with _ | ⟨b, bs⟩ <;> simp [sampleOrders] at hd
  rcases this with ⟨h1, h2, h3⟩
  rw [hsnd, h1, h2, h3]
  rfl

/-- C3: an `assign_delivery_partner` command whose target partner does not
exist, lacks the `delivery_partner` role, or is inactive gets an error
reply and leaves the order store untouched; when all checks pass the order
gets the partner reference, status "assigned", and an audit entry carrying
the actor name and partner identity. -/
theorem assign_delivery_partner_checks
    (oid pid : String) (dAdmin : Option String) (now : Nat)
    (orders : List Order) (users : List User)
    (hoid : oid ≠ "") (hpid : pid ≠ "") :
    ((∀ u ∈ users, u.id = pid → u.role ≠ "delivery_partner" ∨ u.isActive = false) →
      (∃ msg, (assignDeliveryPartner (some oid) (some pid) dAdmin now orders users).fst
          = .error msg)
      ∧ (assignDeliveryPartner (some oid) (some pid) dAdmin now orders users).snd
          = orders)
    ∧ (∀ partner,
        users.find? (deliveryPartnerQuery pid) = some partner →
        orders.any (fun o => o.id == oid) = true →
        (assignDeliveryPartner (some oid) (some pid) dAdmin now orders users).fst
          = .orderAssigned oid pid partner.name
        ∧ ∃ pre x post, orders = pre ++ x :: post ∧ x.id = oid ∧
            (assignDeliveryPartner (some oid) (some pid) dAdmin now orders users).snd
              = pre ++ applyLifecycleWrite now
                  (.assignPartner pid (dAdmin.getD "Admin") partner.name) x :: post
            ∧ (applyLifecycleWrite now
                  (.assignPartner pid (dAdmin.getD "Admin") partner.name) x).deliveryPartner
                = some pid
            ∧ (applyLifecycleWrite now
                  (.assignPartner pid (dAdmin.getD "Admin") partner.name) x).orderStatus
                = "assigned"
            ∧ (applyLifecycleWrite now
                  (.assignPartner pid (dAdmin.getD "Admin") partner.name) x).statusChangeHistory.getLast?
                = some { status := "assigned", changedAt := now,
                         changedBy := some (dAdmin.getD "Admin"),
                         partnerId := some pid,
                         partnerName := some partner.name,
                         message := "Order assigned to " ++ partner.name
                           ++ " by " ++ dAdmin.getD "Admin" }) := by
  have hoe : oid.isEmpty = false := by
    rw [Bool.eq_false_iff]
    simpa [String.isEmpty_iff] using hoid
  have hpe : pid.isEmpty = false := by
    rw [Bool.eq_false_iff]
    simpa [String.isEmpty_iff] using hpid
  constructor
  · intro hbad
    have hnone : users.find? (deliveryPartnerQuery pid) = none := by
      rw [List.find?_eq_none]
      intro u hu hq
      have h1 : (u.id = pid ∧ u.role = "delivery_partner") ∧ u.isActive = true := by
        simpa [deliveryPartnerQuery, Bool.and_eq_true, beq_iff_eq] using hq
      rcases hbad u hu h1.1.1 with h | h
      · exact h h1.1.2
      · rw [h1.2] at h
        exact Bool.noConfusion h
    cases hfo : orders.find? (fun o => o.id == oid) with
    | none =>
        exact ⟨⟨"Order not found", by
          simp [assignDeliveryPartner, hoe, hpe, hfo]⟩, by
          simp [assignDeliveryPartner, hoe, hpe, hfo]⟩
    | some o =>
        exact ⟨⟨"Delivery partner not found or inactive", by
          simp [assignDeliveryPartner, hoe, hpe, hfo, hnone]⟩, by
          simp [assignDeliveryPartner, hoe, hpe, hfo, hnone]⟩
  · intro partner hfind hex
    have hfo : ∃ o, orders.find? (fun o => o.id == oid) = some o := by
      have : (orders.find? (fun o => o.id == oid)).isSome = true := by
        rw [List.find?_isSome]
        simpa [List.any_eq_true] using hex
      exact Option.isSome_iff_exists.mp this
    obtain ⟨o, hfo⟩ := hfo
    obtain ⟨pre, x, post, hdec, _hpre, hx, hupd⟩ :=
      updateFirst_spec (fun o => o.id == oid)
        (applyLifecycleWrite now
          (.assignPartner pid (dAdmin.getD "Admin") partner.name)) orders hex
    have hx' : x.id = oid := by simpa using hx
    refine ⟨?_, pre, x, post, hdec, hx', ?_, rfl, rfl, ?_⟩
    · simp [assignDeliveryPartner, hoe, hpe, hfo, hfind, hex]
    · simp [assignDeliveryPartner, hoe, hpe, hfo, hfind, hex, hupd]
    · simp [applyLifecycleWrite, lifecycleEntry]

/-- C3 witness: with an inactive partner the sample store is left
unchanged with an error reply, and with an active partner the assignment
reply is produced. -/
theorem assign_delivery_partner_checks_witness :
    ((assignDeliveryPartner (some "O1") (some "P1") none 7 sampleOrders
        [sampleInactivePartner]).snd = sampleOrders
    ∧ (assignDeliveryPartner (some "O1") (some "P1") none 7 sampleOrders
        [samplePartner]).fst = .orderAssigned "O1" "P1" "Pat") := by
  constructor
  · exact (assign_delivery_partner_checks "O1" "P1" none 7 sampleOrders
      [sampleInactivePartner] (by decide) (by decide)).1 (by decide) |>.2
  · exact ((assign_delivery_partner_checks "O1" "P1" none 7 sampleOrders
      [samplePartner] (by decide) (by decide)).2 samplePartner (by decide)
      (by decide)).1

theorem nat_ceil_div_eq (a b : Nat) (hb : 0 < b) :
    Nat.ceil ((a : ℚ) / (b : ℚ)) = (a + b - 1) / b := by
  have hbq : (0 : ℚ) < (b : ℚ) := by exact_mod_cast hb
  have key : ∀ n : Nat, (Nat.ceil ((a : ℚ) / (b : ℚ)) ≤ n ↔ (a + b - 1) / b ≤ n) := by
    intro n
    rw [Nat.ceil_le, div_le_iff₀ hbq, Nat.div_le_iff_le_mul_add_pred hb]
    rw [show ((n : ℚ) * (b : ℚ) = ((n * b : Nat) : ℚ)) by push_cast; ring, Nat.cast_le]
    rw [Nat.mul_comm b n]
    generalize n * b = m
    omega
  exact Nat.le_antisymm
    ((key ((a + b - 1) / b)).mpr le_rfl)
    ((key (Nat.ceil ((a : ℚ) / (b : ℚ)))).mp le_rfl)

/-- C4: for every paginated orders read with `limit > 0`, the metadata
satisfies `total_pages = max(1, ceil(count/limit))` (equal to the integer
formula `max 1 ((count+limit-1)/limit)`, hence 1 when the count is 0),
`has_prev` iff `page > 1`, `has_next` iff `page < total_pages`, and an
empty matching set yields an empty row page. -/
theorem send_orders_pagination_spec (page : Int) (limit totalCount : Nat)
    (hl : 0 < limit) :
    (sendOrdersPagination page limit totalCount).totalPages
        = max 1 ((totalCount + limit - 1) / limit)
    ∧ ((sendOrdersPagination page limit totalCount).hasPrev = true ↔ 1 < page)
    ∧ ((sendOrdersPagination page limit totalCount).hasNext = true ↔
        page < ((sendOrdersPagination page limit totalCount).totalPages : Int))
    ∧ (totalCount = 0 →
        (sendOrdersPagination page limit totalCount).totalPages = 1)
    ∧ ∀ skip, sendOrdersRows [] skip limit = [] := by
  refine ⟨?_, by simp [sendOrdersPagination], by simp [sendOrdersPagination], ?_, ?_⟩
  · simp [sendOrdersPagination, sendOrdersTotalPages, nat_ceil_div_eq _ _ hl]
  · intro h0
    subst h0
    simp [sendOrdersPagination, sendOrdersTotalPages]
  · intro skip
    simp [sendOrdersRows]

/-- C4 witness: the empty-store scenario with `count = 0`, `limit = 10`,
`page = 1` yields one total page, no previous or next page, and an empty
row set. -/
theorem send_orders_pagination_spec_witness :
    (sendOrdersPagination 1 10 0).totalPages = 1
    ∧ (sendOrdersPagination 1 10 0).hasPrev = false
    ∧ (sendOrdersPagination 1 10 0).hasNext = false
    ∧ sendOrdersRows [] 0 10 = [] := by
  have h := send_orders_pagination_spec 1 10 0 (by decide)
  have h1 : (sendOrdersPagination 1 10 0).totalPages = 1 := h.2.2.2.1 rfl
  refine ⟨h1, ?_, ?_, h.2.2.2.2 0⟩
  · cases hb : (sendOrdersPagination 1 10 0).hasPrev with
    | false => rfl
    | true => exact absurd (h.2.1.mp hb) (by decide)
  · cases hb : (sendOrdersPagination 1 10 0).hasNext with
    | false => rfl
    | true =>
        have hx := h.2.2.1.mp hb
        rw [h1] at hx
        exact absurd hx (by decide)

/-- C2 counterexample: a porter-request page of two rows referencing the
single distinct user "U1" makes `get_porter_requests` issue two user
lookups, not one batched call. -/
theorem porter_per_row_user_lookup_cex :
    (getPorterRequestsUserLookupCalls
        [samplePorterRequest, samplePorterRequest]).length = 2
    ∧ (getPorterRequestsUserLookupCalls
        [samplePorterRequest, samplePorterRequest]).length ≠ 1
    ∧ [samplePorterRequest, samplePorterRequest].map PorterRequest.userId
        = [some "U1", some "U1"] := by
  refine ⟨rfl, by decide, rfl⟩

/-- C2 as amended: `send_orders` issues exactly one owning-user lookup
carrying the distinct (deduplicated) set of user references of the page,
while `get_porter_requests` issues one user lookup per row with a truthy
`user_id` reference. -/
theorem user_lookup_calls_amended (page : List Order)
    (reqs : List PorterRequest) :
    (sendOrdersUserLookupCalls page).length = 1
    ∧ (ordersPageUserIds page).Nodup
    ∧ (∀ uid, uid ∈ ordersPageUserIds page ↔
        ∃ o ∈ page, o.user = some uid ∧ uid ≠ "")
    ∧ (getPorterRequestsUserLookupCalls reqs).length
        = (reqs.filter (fun r => truthyS r.userId)).length := by
  refine ⟨rfl, List.nodup_dedup _, ?_, ?_⟩
  · intro uid
    rw [ordersPageUserIds, List.mem_dedup, List.mem_filterMap]
    constructor
    · rintro ⟨o, ho, hf⟩
      refine ⟨o, ho, ?_⟩
      cases hu : o.user with
      | none => simp [hu] at hf
      | some v =>
          by_cases hv : v.isEmpty
          · simp [hu, hv] at hf
          · simp [hu, hv] at hf
            subst hf
            exact ⟨rfl, fun h => hv (by simp [String.isEmpty_iff, h])⟩
    · rintro ⟨o, ho, hou, hne⟩
      refine ⟨o, ho, ?_⟩
      rw [hou]
      have : uid.isEmpty = false := by
        rw [Bool.eq_false_iff]
        simpa [String.isEmpty_iff] using hne
      simp [this]
  · induction reqs with
    | nil => rfl
    | cons r rs ih =>
        cases hu : r.userId with
        | none =>
            simpa [getPorterRequestsUserLookupCalls, List.filterMap_cons,
              List.filter_cons, truthyS, hu] using ih
        | some v =>
            by_cases hv : v.isEmpty
            · simpa [getPorterRequestsUserLookupCalls, List.filterMap_cons,
                List.filter_cons, truthyS, hu, hv] using ih
            · simpa [getPorterRequestsUserLookupCalls, List.filterMap_cons,
                List.filter_cons, truthyS, hu, hv] using ih

/-- C6 counterexample: an inactive partner holding the delivery-partner
role is accepted by `assign_porter_partner` — the handler replies with
success and mutates the porter request, although the claim requires a
rejection without mutation. -/
theorem assign_porter_inactive_cex :
    sampleInactivePartner.isActive = false
    ∧ sampleInactivePartner.role = "delivery_partner"
    ∧ (assignPorterPartner (fun _ => true) (some "r1") (some "p1") none 5
        [sampleInactivePartner] [samplePorterRequest]).fst = .updated "r1"
    ∧ (assignPorterPartner (fun _ => true) (some "r1") (some "p1") none 5
        [sampleInactivePartner] [samplePorterRequest]).snd
        ≠ [samplePorterRequest] := by
  refine ⟨rfl, rfl, rfl, by decide⟩

/-- C6 as amended: `assign_porter_partner` requires truthy ids in valid
store-identifier format and a target partner that exists and holds the
delivery-partner role; any of those failing yields an error reply without
mutating the store.  The active flag is not checked: whenever the partner
exists with the role, the request is updated and success is replied,
regardless of `is_active`. -/
theorem assign_porter_partner_amended (isValidOid : String → Bool)
    (rid pid : String) (dCost : Option ℚ) (now : Nat)
    (users : List User) (reqs : List PorterRequest)
    (hrid : rid ≠ "") (hpid : pid ≠ "") :
    (¬ (isValidOid rid && isValidOid pid) = true →
      (assignPorterPartner isValidOid (some rid) (some pid) dCost now users reqs).fst
          = .error "Invalid ID format"
      ∧ (assignPorterPartner isValidOid (some rid) (some pid) dCost now users reqs).snd
          = reqs)
    ∧ ((isValidOid rid && isValidOid pid) = true →
        users.find? (fun u => u.oid == pid) = none →
      (assignPorterPartner isValidOid (some rid) (some pid) dCost now users reqs).fst
          = .error "Invalid delivery partner"
      ∧ (assignPorterPartner isValidOid (some rid) (some pid) dCost now users reqs).snd
          = reqs)
    ∧ (∀ partner, (isValidOid rid && isValidOid pid) = true →
        users.find? (fun u => u.oid == pid) = some partner →
        partner.role ≠ "delivery_partner" →
      (assignPorterPartner isValidOid (some rid) (some pid) dCost now users reqs).fst
          = .error "Invalid delivery partner"
      ∧ (assignPorterPartner isValidOid (some rid) (some pid) dCost now users reqs).snd
          = reqs)
    ∧ (∀ partner, (isValidOid rid && isValidOid pid) = true →
        users.find? (fun u => u.oid == pid) = some partner →
        partner.role = "delivery_partner" →
      (assignPorterPartner isValidOid (some rid) (some pid) dCost now users reqs).fst
          = .updated rid
      ∧ (assignPorterPartner isValidOid (some rid) (some pid) dCost now users reqs).snd
          = updateFirst (fun r => r.oid == rid)
              (porterAssignApply pid partner.name dCost now) reqs) := by
  have hre : rid.isEmpty = false := by
    rw [Bool.eq_false_iff]
    simpa [String.isEmpty_iff] using hrid
  have hpe : pid.isEmpty = false := by
    rw [Bool.eq_false_iff]
    simpa [String.isEmpty_iff] using hpid
  refine ⟨?_, ?_, ?_, ?_⟩
  · intro hv
    have hv' : (isValidOid rid && isValidOid pid) = false := by
      simpa using hv
    constructor <;> simp [assignPorterPartner, hre, hpe, hv']
  · intro hv hfind
    constructor <;> simp [assignPorterPartner, hre, hpe, hv, hfind]
  · intro partner hv hfind hrole
    have hr : (partner.role != "delivery_partner") = true := by
      simpa [bne_iff_ne] using hrole
    constructor <;> simp [assignPorterPartner, hre, hpe, hv, hfind, hr]
  · intro partner hv hfind hrole
    have hr : (partner.role != "delivery_partner") = false := by
      simpa [bne_iff_ne] using hrole
    constructor <;> simp [assignPorterPartner, hre, hpe, hv, hfind, hr]

/-- C6 witness: applying the amended theorem at concrete inputs — a
missing partner is rejected without mutation, and an inactive partner with
the role is assigned. -/
theorem assign_porter_partner_amended_witness :
    ((assignPorterPartner (fun _ => true) (some "r1") (some "zz") none 5
        [sampleInactivePartner] [samplePorterRequest]).snd
        = [samplePorterRequest]
    ∧ (assignPorterPartner (fun _ => true) (some "r1") (some "p1") none 5
        [sampleInactivePartner] [samplePorterRequest]).fst = .updated "r1") := by
  constructor
  · exact ((assign_porter_partner_amended (fun _ => true) "r1" "zz" none 5
      [sampleInactivePartner] [samplePorterRequest] (by decide) (by decide)).2.1
      (by decide) (by decide)).2
  · exact ((assign_porter_partner_amended (fun _ => true) "r1" "p1" none 5
      [sampleInactivePartner] [samplePorterRequest] (by decide)
      (by decide)).2.2.2 sampleInactivePartner (by decide) (by decide) rfl).1

theorem mem_uploadOutcome (upload : Nat → String → Option UploadResult)
    (i : Nat) (d : String) (img : StoredImage) :
    img ∈ uploadOutcome upload i d ↔
      ∃ r u, uploadGuard d = true ∧ upload i d = some r ∧ r.urls = some u ∧
        img = ⟨u.original, u.thumbnail, r.publicId, i, i == 0⟩ := by
  unfold uploadOutcome
  by_cases hG : uploadGuard d
  · cases hup : upload i d with
    | none => simp [hG, hup]
    | some r =>
        cases hu : r.urls with
        | none => simp [hG, hup, hu]
        | some u => simp [hG, hup, hu]
  · simp [hG]

theorem uploadLoop_mem_iff (upload : Nat → String → Option UploadResult)
    (i : Nat) (l : List String) (img : StoredImage) :
    img ∈ uploadLoop upload i l ↔
      ∃ j d r u, l.get? j = some d ∧ uploadGuard d = true ∧
        upload (i + j) d = some r ∧ r.urls = some u ∧
        img = ⟨u.original, u.thumbnail, r.publicId, i + j, i + j == 0⟩ := by
  induction l generalizing i with
  | nil => simp [uploadLoop]
  | cons d rest ih =>
      rw [uploadLoop, List.mem_append, mem_uploadOutcome, ih (i + 1)]
      constructor
      · rintro (⟨r, u, hG, hup, hu, he⟩ | ⟨j, d', r, u, hg, hG, hup, hu, he⟩)
        · exact ⟨0, d, r, u, by simp, hG, by simpa using hup, hu, by simpa using he⟩
        · refine ⟨j + 1, d', r, u, by simpa using hg, hG, ?_, hu, ?_⟩
          · rw [show i + (j + 1) = i + 1 + j by omega]
            exact hup
          · rw [show i + (j + 1) = i + 1 + j by omega]
            exact he
      · rintro ⟨j, d', r, u, hg, hG, hup, hu, he⟩
        cases j with
        | zero =>
            left
            have hd : d = d' := by simpa using hg
            subst hd
            exact ⟨r, u, hG, by simpa using hup, hu, by simpa using he⟩
        | succ j' =>
            right
            refine ⟨j', d', r, u, by simpa using hg, hG, ?_, hu, ?_⟩
            · rw [show i + 1 + j' = i + (j' + 1) by omega]
              exact hup
            · rw [show i + 1 + j' = i + (j' + 1) by omega]
              exact he

theorem filter_primary_le_one (L : List StoredImage)
    (hP : L.Pairwise (fun a b => a.index < b.index))
    (hprim : ∀ img ∈ L, img.isPrimary = true → img.index = 0) :
    (L.filter (fun img => img.isPrimary)).length ≤ 1 := by
  induction L with
  | nil => simp
  | cons a L ih =>
      rw [List.pairwise_cons] at hP
      by_cases ha : a.isPrimary = true
      · have hL : ∀ b ∈ L, b.isPrimary = false := by
          intro b hb
          by_contra hb'
          have hbp : b.isPrimary = true := by simpa using hb'
          have hb0 : b.index = 0 := hprim b (List.mem_cons_of_mem _ hb) hbp
          have ha0 : a.index = 0 := hprim a (List.mem_cons_self _ _) ha
          have := hP.1 b hb
          omega
        have hnil : L.filter (fun img => img.isPrimary) = [] := by
          rw [List.filter_eq_nil_iff]
          intro b hb
          simp [hL b hb]
        simp [List.filter_cons, ha, hnil]
      · have hrec : (L.filter (fun img => img.isPrimary)).length ≤ 1 :=
          ih hP.2 fun img hm hp => hprim img (List.mem_cons_of_mem _ hm) hp
        have ha' : a.isPrimary = false := by simpa using ha
        simpa [List.filter_cons, ha'] using hrec

theorem uploadLoop_pairwise (upload : Nat → String → Option UploadResult)
    (i : Nat) (l : List String) :
    (uploadLoop upload i l).Pairwise (fun a b => a.index < b.index) := by
  induction l generalizing i with
  | nil => simp [uploadLoop]
  | cons d rest ih =>
      rw [uploadLoop, List.pairwise_append]
      refine ⟨?_, ih (i + 1), ?_⟩
      · unfold uploadOutcome
        by_cases hG : uploadGuard d
        · cases hup : upload i d with
          | none => simp [hG, hup]
          | some r =>
              cases hu : r.urls with
              | none => simp [hG, hup, hu]
              | some u => simp [hG, hup, hu]
        · simp [hG]
      · intro a ha b hb
        obtain ⟨r, u, hG, hup, hu, he⟩ := (mem_uploadOutcome upload i d a).mp ha
        obtain ⟨j, d', r', u', hg, hGr, hupr, hur, he'⟩ :=
          (uploadLoop_mem_iff upload (i + 1) rest b).mp hb
        have h1 : a.index = i := by rw [he]
        have h2 : b.index = i + 1 + j := by rw [he']
        omega

/-- C5: in the create-product upload loop, a failing upload is skipped
without aborting the rest; every stored image keeps its original
submission index and is primary exactly when that index is 0; hence at
most one stored image is primary, and if the index-0 submission does not
succeed no stored image is primary. -/
theorem upload_images_primary_index (upload : Nat → String → Option UploadResult)
    (imagesData : List String) :
    (∀ img ∈ uploadedImages upload imagesData,
        (img.isPrimary = true ↔ img.index = 0)
        ∧ img.index < imagesData.length
        ∧ ∃ d r u, imagesData.get? img.index = some d ∧ uploadGuard d = true
            ∧ upload img.index d = some r ∧ r.urls = some u
            ∧ img.url = u.original ∧ img.publicId = r.publicId)
    ∧ ((uploadedImages upload imagesData).filter (fun img => img.isPrimary)).length ≤ 1
    ∧ (∀ j d r u, imagesData.get? j = some d → uploadGuard d = true →
        upload j d = some r → r.urls = some u →
        (⟨u.original, u.thumbnail, r.publicId, j, j == 0⟩ : StoredImage)
          ∈ uploadedImages upload imagesData)
    ∧ (∀ d rest, imagesData = d :: rest →
        (uploadGuard d = false ∨ upload 0 d = none ∨
          ∃ r, upload 0 d = some r ∧ r.urls = none) →
        ∀ img ∈ uploadedImages upload imagesData, img.isPrimary = false) := by
  refine ⟨?_, ?_, ?_, ?_⟩
  · intro img hm
    obtain ⟨j, d, r, u, hg, hG, hup, hu, he⟩ :=
      (uploadLoop_mem_iff upload 0 imagesData img).mp hm
    rw [Nat.zero_add] at hup he
    have hidx : img.index = j := by rw [he]
    refine ⟨?_, ?_, d, r, u, ?_, hG, ?_, hu, ?_, ?_⟩
    · rw [he]
      simp
    · rw [hidx]
      by_contra hlen
      push_neg at hlen
      rw [List.get?_eq_none.mpr hlen] at hg
      exact Option.noConfusion hg
    · rw [hidx]; exact hg
    · rw [hidx]; exact hup
    · rw [he]
    · rw [he]
  · exact filter_primary_le_one _ (uploadLoop_pairwise upload 0 imagesData)
      (fun img hm hp => by
        obtain ⟨j, d, r, u, hg, hG, hup, hu, he⟩ :=
          (uploadLoop_mem_iff upload 0 imagesData img).mp hm
        rw [he] at hp ⊢
        simpa using hp)
  · intro j d r u hg hG hup hu
    rw [uploadedImages, uploadLoop_mem_iff]
    exact ⟨j, d, r, u, hg, hG, by simpa using hup, hu, by simp⟩
  · intro d rest hdec hfail img hm
    obtain ⟨j, d', r, u, hg, hG, hup, hu, he⟩ :=
      (uploadLoop_mem_iff upload 0 imagesData img).mp hm
    rw [Nat.zero_add] at hup he
    cases j with
    | zero =>
        exfalso
        rw [hdec] at hg
        have hd : d = d' := by simpa using hg
        subst hd
        rcases hfail with hf | hf | ⟨r', hr', hru⟩
        · rw [hf] at hG; exact Bool.noConfusion hG
        · rw [hf] at hup; exact Option.noConfusion hup
        · rw [hr'] at hup
          have : r' = r := by simpa using hup
          subst this
          rw [hru] at hu
          exact Option.noConfusion hu
    | succ j' =>
        rw [he]
        simp

/-- C5 witness: on a concrete three-image batch whose index-0 upload
fails, two images are stored and none is primary. -/
theorem upload_images_primary_index_witness :
    (uploadedImages sampleUpload sampleImagesData).all
        (fun img => img.isPrimary == false) = true
    ∧ (uploadedImages sampleUpload sampleImagesData).length = 2 := by
  have h := upload_images_primary_index sampleUpload sampleImagesData
  constructor
  · rw [List.all_eq_true]
    intro img hm
    have hf := h.2.2.2 "data:a" ["data:b", "data:c"] rfl
      (Or.inr (Or.inl rfl)) img hm
    simp [hf]
  · rfl

/-- C7: when both date bounds parse (two date clauses) and at least one
amount bound parses, the compiled predicate's `$and` list is the date
conjunction extended — not overwritten — by the amount clauses, so it
contains every parsed date clause and every parsed amount clause. -/
theorem build_orders_query_conjunction (parseIso : String → Option Int)
    (parseAmount : String → Option ℚ) (f : OrdersFilters) (d1 d2 : Int)
    (hd : dateConditions parseIso f
        = [Clause.createdAtGte d1, Clause.createdAtLte d2])
    (ha : amountConditions parseAmount f ≠ []) :
    (buildOrdersQuery parseIso parseAmount f).and
        = some ([Clause.createdAtGte d1, Clause.createdAtLte d2]
            ++ amountConditions parseAmount f)
    ∧ Clause.createdAtGte d1 ∈ ([Clause.createdAtGte d1, Clause.createdAtLte d2]
            ++ amountConditions parseAmount f)
    ∧ Clause.createdAtLte d2 ∈ ([Clause.createdAtGte d1, Clause.createdAtLte d2]
            ++ amountConditions parseAmount f)
    ∧ ∀ c ∈ amountConditions parseAmount f,
        c ∈ ([Clause.createdAtGte d1, Clause.createdAtLte d2]
            ++ amountConditions parseAmount f) := by
  have hae : (amountConditions parseAmount f).isEmpty = false := by
    cases hac : amountConditions parseAmount f with
    | nil => exact absurd hac ha
    | cons c cs => rfl
  refine ⟨?_, by simp, by simp, fun c hc => List.mem_append_right _ hc⟩
  simp only [buildOrdersQuery, hd, hae]
  cases hs : f.search with
  | none => simp
  | some s =>
      by_cases hse : s.isEmpty
      · simp [hse]
      · simp [hse]

/-- C7 witness: with concrete parse functions, both dates present and a
minimum amount present, the compiled `$and` list carries both date clauses
followed by the amount clause. -/
theorem build_orders_query_conjunction_witness :
    (buildOrdersQuery (fun _ => some 100) (fun _ => some 10)
      { status := none, fromDate := some "2024-01-01T00:00:00Z",
        toDate := some "2024-02-01T00:00:00Z", minAmount := some "10",
        maxAmount := none, search := none }).and
      = some [Clause.createdAtGte 100, Clause.createdAtLte 100,
              Clause.totalAmountGte 10] := by
  have h := build_orders_query_conjunction (fun _ => some 100)
    (fun _ => some 10)
    { status := none, fromDate := some "2024-01-01T00:00:00Z",
      toDate := some "2024-02-01T00:00:00Z", minAmount := some "10",
      maxAmount := none, search := none } 100 100 (by rfl) (by decide)
  exact h.1

/-- C9: the filter set with status "all" and search "#ABC12" compiles to a
predicate with no status clause, no date or amount clause, and a
case-insensitive regex on the human-readable `id` field matching "ABC12"
(the search term trimmed and stripped of one leading "#"). -/
theorem build_orders_query_search_scenario (parseIso : String → Option Int)
    (parseAmount : String → Option ℚ) :
    buildOrdersQuery parseIso parseAmount
      { status := some "all", fromDate := none, toDate := none,
        minAmount := none, maxAmount := none, search := some "#ABC12" }
      = { orderStatus := none, createdAt := none, and := none,
          idRegex := some { pattern := "ABC12", caseInsensitive := true } } := by
  have ht : pyStrip "#ABC12" = "#ABC12" := by decide
  have hsw : pyStartsWith "#ABC12" "#" = true := by decide
  have hdr : pyDropChars 1 "#ABC12" = "ABC12" := by decide
  have hne : "#ABC12".isEmpty = false := by decide
  simp [buildOrdersQuery, dateConditions, amountConditions, ht, hsw, hdr, hne]

/-- C8 counterexample: an update payload that only changes the stock of a
product stored with status "inactive" leaves the status "inactive" but
flips `is_active` to true, so after the mutation the stored product
violates status = "active" ⇔ is_active = true. -/
theorem product_update_sync_cex :
    (updateProductApply { status := none, stock := some 7 }
        { id := "PR1", status := "inactive", isActive := false, stock := 5 }).status
      = "inactive"
    ∧ (updateProductApply { status := none, stock := some 7 }
        { id := "PR1", status := "inactive", isActive := false, stock := 5 }).isActive
      = true
    ∧ ¬ ((updateProductApply { status := none, stock := some 7 }
        { id := "PR1", status := "inactive", isActive := false, stock := 5 }).status
          = "active"
        ↔ (updateProductApply { status := none, stock := some 7 }
            { id := "PR1", status := "inactive", isActive := false, stock := 5 }).isActive
          = true) := by
  refine ⟨rfl, rfl, ?_⟩
  intro h
  exact absurd (h.mpr rfl) (by decide)

/-- C8 as amended: create always stores status and `is_active` in sync
(`is_active` is derived from the effective status); update keeps them in
sync whenever the payload carries a status field, but a payload omitting
status unconditionally sets `is_active` to true while leaving the stored
status unchanged, so a product stored with a non-"active" status ends out
of sync. -/
theorem product_status_sync_amended (dataStatus : Option String)
    (u : ProductUpdatePayload) (p : Product) :
    ((createProductStatusFields dataStatus).1 = "active"
      ↔ (createProductStatusFields dataStatus).2 = true)
    ∧ (∀ s, u.status = some s →
        ((updateProductApply u p).status = "active"
          ↔ (updateProductApply u p).isActive = true))
    ∧ (u.status = none →
        (updateProductApply u p).isActive = true
        ∧ (updateProductApply u p).status = p.status) := by
  refine ⟨?_, ?_, ?_⟩
  · simp [createProductStatusFields]
  · intro s hs
    simp [updateProductApply, hs]
  · intro hs
    simp [updateProductApply, hs]

/-- C8 witness: applying the amended theorem at concrete inputs — an
update carrying status "inactive" yields a deactivated product, and one
omitting status yields `is_active` true with the stored status kept. -/
theorem product_status_sync_amended_witness :
    (updateProductApply { status := some "inactive", stock := none }
        { id := "PR1", status := "active", isActive := true, stock := 1 }).isActive
      = false
    ∧ (updateProductApply { status := none, stock := some 7 }
        { id := "PR1", status := "inactive", isActive := false, stock := 5 }).isActive
      = true := by
  constructor
  · have h := product_status_sync_amended (some "active")
      { status := some "inactive", stock := none }
      { id := "PR1", status := "active", isActive := true, stock := 1 }
    have h2 := h.2.1 "inactive" rfl
    cases hb : (updateProductApply { status := some "inactive", stock := none }
        { id := "PR1", status := "active", isActive := true, stock := 1 }).isActive with
    | false => rfl
    | true => exact absurd (h2.mpr hb) (by decide)
  · exact (product_status_sync_amended none
      { status := none, stock := some 7 }
      { id := "PR1", status := "inactive", isActive := false, stock := 5 }).2.2
      rfl |>.1

end AdminBackend
